import Mathlib

/-!
Shallow embedding of `src/terminal.rs` (rogcat's human-readable terminal
renderer) and verification of its specification claims.

Modelling conventions:
* Strings are Lean `String`s; widths are counted in characters, matching the
  source's pervasive use of `chars().count()` (the spec documents character
  count as the width proxy).  `String::truncate` is byte-based in Rust; it is
  modelled char-based here, which coincides on ASCII text.
* `time::Tm` values are modelled as `Int` milliseconds; `(ts - t).num_milliseconds()`
  becomes plain integer subtraction.
* External collaborators that are not part of this repository are parameters:
  `strftime` (the time crate's formatter, which can fail), the regex compiler
  `compile` (invalid patterns yield `none`), the terminal width probe
  (`Option Nat`), the persisted-config store (`Config`), and the record's own
  serializer for the Csv/Json/Raw pass-through formats.
* The two regexes the renderer builds itself are total on their tiny pattern
  languages and are modelled directly: `--------- beginning of.*` matches a
  string iff it contains the literal `--------- beginning of` (unanchored
  search, `.*` matches anything), and replacing `a|e|i|o|u` by the empty
  string removes exactly those five lowercase characters.
* ANSI styling (`term_painter`) changes only escape codes around the very same
  text, so rendered lines are modelled as their unstyled field contents; the
  highlight regexes only influence styling and are carried opaquely in the
  state.
* Printing is modelled by returning the produced output as data: the optional
  horizontal-rule separator line and the list of per-record physical lines.
-/

/-- Modelled from the spec: the `OutputFormat` enum of the absent
`src/record.rs` (`{Human, Csv, Json, Raw, Html}`). -/
inductive Format where
  | Human
  | Csv
  | Json
  | Raw
  | Html
deriving DecidableEq, Repr

/-- Modelled from the spec: parsing of the `--format` argument value in the
absent `src/record.rs` (`Format::from_str`); unknown names fail, and the
caller falls back to `Human`. -/
def Format.fromStr (s : String) : Option Format :=
  if s = "human" then some Format.Human
  else if s = "csv" then some Format.Csv
  else if s = "json" then some Format.Json
  else if s = "raw" then some Format.Raw
  else if s = "html" then some Format.Html
  else none

/-- The severity levels of a record (`Level` in the absent `src/record.rs`,
listed in the spec's data model). -/
inductive Level where
  | Trace
  | Verbose
  | Debug
  | Info
  | Warn
  | Error
  | Fatal
  | Assert
  | None
deriving DecidableEq, Repr

/-- Modelled from the spec: the one-character display name of a level used in
the level badge (the spec's end-to-end example shows badge " I " for `Info`). -/
def Level.display : Level → String
  | Level.Trace => "T"
  | Level.Verbose => "V"
  | Level.Debug => "D"
  | Level.Info => "I"
  | Level.Warn => "W"
  | Level.Error => "E"
  | Level.Fatal => "F"
  | Level.Assert => "A"
  | Level.None => "-"

/-- One structured log record (`Record` in the absent `src/record.rs`, per the
spec's data model).  The timestamp is milliseconds since an arbitrary epoch. -/
structure Record where
  timestamp : Option Int
  message : String
  tag : String
  process : String
  thread : String
  level : Level
deriving DecidableEq, Repr

/-- A compiled regular expression, carried opaquely (the regex crate is
external; highlight regexes only influence ANSI styling, which is elided). -/
structure Regex where
  pattern : String
deriving DecidableEq, Repr

/-- The renderer's state, mirroring `struct Terminal` field by field.  The two
fixed regex fields `beginning_of` and `vovels` are set once in `new` to
constant patterns and never reassigned, so they are modelled as the top-level
functions `isBeginningOf` and `stripVowels` instead of fields. -/
structure Terminal where
  color : Bool
  date_format : String × Nat
  diff_width : Nat
  format : Format
  highlight : List Regex
  no_dimm : Bool
  process_width : Nat
  shorten_tag : Bool
  tag_timestamps : List (String × Int)
  tag_width : Option Nat
  thread_width : Nat
  time_diff : Bool
deriving DecidableEq, Repr

/-- The color hash on the string's UTF-8 byte values: fold the bytes with
exclusive-or into a 16-bit accumulator seeded at 42, then the ordered match of
range remaps (`0...1 => +2`, `16...21 => +6`, `52...55 | 126...129 => +4`,
`163...165 | 200...201 => +3`, `207 => +1`, `232...240 => +9`). -/
def hashed_color_bytes (bytes : List Nat) : Nat :=
  let c := bytes.foldl (fun c x => (c ^^^ x) % 65536) 42
  if c ≤ 1 then c + 2
  else if 16 ≤ c ∧ c ≤ 21 then c + 6
  else if (52 ≤ c ∧ c ≤ 55) ∨ (126 ≤ c ∧ c ≤ 129) then c + 4
  else if (163 ≤ c ∧ c ≤ 165) ∨ (200 ≤ c ∧ c ≤ 201) then c + 3
  else if c = 207 then c + 1
  else if 232 ≤ c ∧ c ≤ 240 then c + 9
  else c

/-- Source function `Terminal::hashed_color`: the color index computed from a
string (`item.bytes()` iterates the string's UTF-8 bytes). -/
def hashed_color (item : String) : Nat :=
  hashed_color_bytes (item.toUTF8.toList.map (fun b => b.toNat))

/-- The spec's reference description of the color hash's remap step: "a fixed
lookup table of range→offset adjustments", applied in order, first match
wins.  Each entry is (low, high, offset). -/
def colorRemapTable : List (Nat × Nat × Nat) :=
  [(0, 1, 2), (16, 21, 6), (52, 55, 4), (126, 129, 4),
   (163, 165, 3), (200, 201, 3), (207, 207, 1), (232, 240, 9)]

/-- Apply an ordered range→offset remap table to a color index. -/
def applyRemap : List (Nat × Nat × Nat) → Nat → Nat
  | [], c => c
  | (lo, hi, off) :: rest, c =>
      if lo ≤ c ∧ c ≤ hi then c + off else applyRemap rest c

/-- The spec's reference definition of the color hash: XOR-fold of the bytes
into a 16-bit accumulator seeded at a fixed constant (42), followed by the
ordered remap table. -/
def specColorHash (bytes : List Nat) : Nat :=
  applyRemap colorRemapTable (bytes.foldl (fun c x => (c ^^^ x) % 65536) 42)

/-- A run of n spaces. -/
def spaces (n : Nat) : String := String.mk (List.replicate n ' ')

/-- Rust's right-aligning pad (format spec ">w"): prefix with spaces up to
width w; strings already at least w characters wide are left unchanged. -/
def padLeft (w : Nat) (s : String) : String := spaces (w - s.length) ++ s

/-- Rust's left-aligning pad (format spec "<w"): append spaces up to width w. -/
def padRight (w : Nat) (s : String) : String := s ++ spaces (w - s.length)

/-- Unanchored search for a literal character sequence: does pat occur as a
contiguous subsequence of the second argument? -/
def containsSeq (pat : List Char) : List Char → Bool
  | [] => pat.isEmpty
  | c :: cs => pat.isPrefixOf (c :: cs) || containsSeq pat cs

/-- The fixed session-boundary regex of the field beginning_of
("--------- beginning of.*"), applied with unanchored search: a string
matches iff it contains the literal prefix text. -/
def isBeginningOf (msg : String) : Bool :=
  containsSeq "--------- beginning of".toList msg.toList

/-- The fixed vowel regex of the field vovels ("a|e|i|o|u") under
replace_all with the empty string: every lowercase-vowel character is
removed. -/
def stripVowels (s : String) : String :=
  String.mk (s.toList.filter fun c =>
    !(c == 'a' || c == 'e' || c == 'i' || c == 'o' || c == 'u'))

/-- Char-level take, as used for the timestamp column: the Rust expression
chars().take(n).collect is genuinely char-based. -/
def takeChars (n : Nat) (s : String) : String := String.mk (s.toList.take n)

/-- Byte-faithful scan of String::truncate down a char list, with n the
remaining byte budget: characters are consumed while their UTF-8 sizes fit;
a budget that runs out strictly inside a character is Rust's
"not a char boundary" panic, modelled as none; a budget at or beyond the end
of the string keeps everything (truncate with new_len at least the byte
length is a no-op). -/
def truncateUtf8 (n : Nat) : List Char → Option (List Char)
  | [] => some []
  | c :: cs =>
      if n = 0 then some []
      else if c.utf8Size ≤ n then
        (truncateUtf8 (n - c.utf8Size) cs).map (fun r => c :: r)
      else none

/-- Byte-based model of String::truncate (print_human line 199,
t.truncate(tag_width)): cut the string to w BYTES; none models the Rust
panic raised when byte index w is not a character boundary of the string. -/
def truncateStr (w : Nat) (s : String) : Option String :=
  (truncateUtf8 w s.toList).map String.mk

/-- Lookup in the tag_timestamps map (HashMap::get). -/
def lookupTs (k : String) (l : List (String × Int)) : Option Int :=
  (l.find? fun p => p.1 == k).map fun p => p.2

/-- Insert into the tag_timestamps map (HashMap::insert): latest wins. -/
def insertTs (k : String) (v : Int) (l : List (String × Int)) :
    List (String × Int) :=
  (k, v) :: l.filter fun p => !(p.1 == k)

/-- Diff-column text (print_human lines 150-164): when time-diff is enabled
and the tag has a stored previous timestamp, the absolute elapsed
milliseconds d rendered by the Rust format string "{}.{:.03}" applied to
d / 1000 and d % 1000.  Rust ignores a precision specifier on integers, so
the millisecond part is NOT zero-padded.  The text is kept if it fits in
diff_width characters, else replaced by the placeholder "-.---". -/
def diffText (timeDiff : Bool) (diffWidth : Nat) (prev : Option Int)
    (ts : Int) : String :=
  if timeDiff then
    match prev with
    | some t =>
        let d := (ts - t).natAbs
        let s := toString (d / 1000) ++ "." ++ toString (d % 1000)
        if s.length ≤ diffWidth then s else "-.---"
    | none => ""
  else ""

/-- Three-digit zero-padding of a millisecond value, as the spec's
"three-digit millisecond fraction" requires. -/
def pad3 (n : Nat) : String :=
  if n < 10 then "00" ++ toString n
  else if n < 100 then "0" ++ toString n
  else toString n

/-- The spec's reading of the diff text (claim C1): seconds, a dot, then a
three-digit zero-padded millisecond fraction, with the same width check and
placeholder. -/
def specDiffText (diffWidth : Nat) (prev : Option Int) (ts : Int) : String :=
  match prev with
  | some t =>
      let d := (ts - t).natAbs
      let s := toString (d / 1000) ++ "." ++ pad3 (d % 1000)
      if s.length ≤ diffWidth then s else "-.---"
  | none => ""

/-- Timestamp-column text (print_human lines 143-148): the strftime output
cut to the date format's fixed width, a blank field of that width on
formatting failure, and empty if the record has no timestamp. -/
def timestampText (strftime : String → Int → Option String)
    (date_format : String × Nat) (ts? : Option Int) : String :=
  match ts? with
  | some ts =>
      match strftime date_format.1 ts with
      | some s => takeChars date_format.2 s
      | none => spaces date_format.2
  | none => ""

/-- Raw diff text of a record against the current state, before the
session-boundary override (print_human lines 143-169). -/
def rawDiffText (t : Terminal) (r : Record) : String :=
  match r.timestamp with
  | some ts => diffText t.time_diff t.diff_width (lookupTs r.tag t.tag_timestamps) ts
  | none => ""

/-- Effective tag width (print_human lines 172-178): the configured width if
set, else tiered by the detected terminal width (35 when undetectable). -/
def effTagWidth (cfg : Option Nat) (terminalWidth : Option Nat) : Nat :=
  match cfg with
  | some w => w
  | none =>
      match terminalWidth with
      | some n =>
          if n ≤ 80 then 15
          else if n ≤ 90 then 20
          else if n ≤ 100 then 25
          else if n ≤ 110 then 30
          else 35
      | none => 35

/-- The tag after the optional vowel-stripping step (print_human lines
195-197). -/
def shortenedTag (shorten : Bool) (t0 : String) : String :=
  if shorten then stripVowels t0 else t0

/-- Tag-column text (print_human lines 194-202): when over-width, optionally
strip vowels, hard-truncate (byte-based String::truncate, which panics —
none — when byte index w is mid-character) if still over-width, then
right-align padded to the tag width. -/
def renderTag (shorten : Bool) (w : Nat) (t0 : String) : Option String :=
  if t0.length > w then
    if (shortenedTag shorten t0).length > w then
      (truncateStr w (shortenedTag shorten t0)).map (padLeft w)
    else some (padLeft w (shortenedTag shorten t0))
  else some (padLeft w t0)

/-- The displayed tag value: session-boundary messages are shown in place of
a tag (print_human lines 180-192). -/
def tagBase (r : Record) : String :=
  if isBeginningOf r.message then r.message else r.tag

/-- Updated process-column running maximum (print_human line 205). -/
def newProcessWidth (t : Terminal) (r : Record) : Nat :=
  max t.process_width r.process.length

/-- Updated thread-column running maximum (print_human lines 211-220): only
records with a non-empty thread update it. -/
def newThreadWidth (t : Terminal) (r : Record) : Nat :=
  if r.thread = "" then t.thread_width else max t.thread_width r.thread.length

/-- Process-column text (print_human lines 206-210). -/
def pidText (t : Terminal) (r : Record) : String :=
  if r.process = "" then spaces (newProcessWidth t r)
  else padRight (newProcessWidth t r) r.process

/-- Thread-column text (print_human lines 211-220). -/
def tidText (t : Terminal) (r : Record) : String :=
  if r.thread = "" then
    if t.thread_width > 0 then spaces (t.thread_width + 1) else ""
  else " " ++ padLeft (newThreadWidth t r) r.thread

/-- Level badge text (print_human line 228). -/
def levelText (r : Record) : String := " " ++ r.level.display ++ " "

/-- Preamble width (print_human lines 286-289, non-Windows): the width of
the fixed prefix preceding the message, from the already-updated running
maxima. -/
def preambleWidth (tsW diffW tagW procW thrW : Nat) : Nat :=
  tsW + 1 + diffW + 1 + tagW + 1 + 1 + procW +
    (if thrW = 0 then 0 else 1) + thrW + 1 + 1 + 3 + 3

/-- The preamble width of a record in a given state and terminal width. -/
def preambleAfter (t : Terminal) (terminalWidth : Option Nat) (r : Record) : Nat :=
  preambleWidth t.date_format.2 t.diff_width (effTagWidth t.tag_width terminalWidth)
    (newProcessWidth t r) (newThreadWidth t r)

/-- One step of the wrapping loop (print_human lines 300-307): the chunk
width to take from the remaining message and the marker glyph. -/
def chunkPlan (cols preamble recordLen charsLeft : Nat) : Nat × String :=
  if charsLeft = recordLen then (cols - preamble, "┌")
  else if charsLeft ≤ cols - preamble then (charsLeft, "└")
  else (cols - preamble, "├")

/-- The wrapping loop (print_human lines 296-317), fuelled: the Rust loop
makes progress only when cols > preamble (otherwise the usize subtraction
underflows), and fuel := message length bounds the iteration count in that
case. -/
def wrapChunks (cols preamble recordLen : Nat) :
    Nat → List Char → List (List Char × String)
  | 0, _ => []
  | _ + 1, [] => []
  | fuel + 1, c :: cs =>
      let m := c :: cs
      let plan := chunkPlan cols preamble recordLen m.length
      (m.take plan.1, plan.2) ::
        wrapChunks cols preamble recordLen fuel (m.drop plan.1)

/-- The per-record chunking (print_human lines 285-323): wrap when the width
is detected and preamble plus message overflow it, else a single chunk with
a blank marker. -/
def messageChunks (terminalWidth : Option Nat) (preamble : Nat) (msg : String) :
    List (List Char × String) :=
  match terminalWidth with
  | some width =>
      if preamble + msg.length > width then
        wrapChunks width preamble msg.length msg.length msg.toList
      else [(msg.toList, " ")]
  | none => [(msg.toList, " ")]

/-- One printed physical line, as its unstyled field contents (the arguments
of the print_msg closure's format string, lines 251-283).  The tag column is
none when the program would panic while building it (byte-based truncate cut
off a character boundary, print_human line 199); on such a record the Rust
process aborts before printing anything, so the rest of the line model is
meaningful only on the non-panicking domain — no other claim below depends
on the tag column's content. -/
structure Line where
  timestamp : String
  diff : String
  tag : Option String
  pid : String
  tid : String
  level : String
  sign : String
  chunk : String
deriving DecidableEq, Repr

/-- Everything one renderer call prints: the optional session-separator rule
line, the record's physical lines and, for the pass-through formats, the raw
serialized line. -/
structure Output where
  rule : Option String
  lines : List Line
  raw : Option String
deriving DecidableEq, Repr

/-- The horizontal-rule separator (print_human line 186). -/
def hrule (width : Nat) : String := String.mk (List.replicate width '─')

/-- The physical lines printed for one record in Human format: one line per
chunk, each repeating the full preamble with the chunk's marker glyph. -/
def recordLines (strftime : String → Int → Option String)
    (terminalWidth : Option Nat) (t : Terminal) (r : Record) : List Line :=
  (messageChunks terminalWidth (preambleAfter t terminalWidth r) r.message).map
    fun cs =>
      { timestamp := timestampText strftime t.date_format r.timestamp
        diff := if isBeginningOf r.message then "" else rawDiffText t r
        tag := renderTag t.shorten_tag (effTagWidth t.tag_width terminalWidth) (tagBase r)
        pid := pidText t r
        tid := tidText t r
        level := levelText r
        sign := cs.2
        chunk := String.mk cs.1 }

/-- The tag-timestamp map after one record: cleared on a session boundary
(print_human lines 182-183), then the post-print store of lines 325-329. -/
def newTagTimestamps (t : Terminal) (r : Record) : List (String × Int) :=
  let base := if isBeginningOf r.message then [] else t.tag_timestamps
  match r.timestamp with
  | some ts => if t.time_diff ∧ r.tag ≠ "" then insertTs r.tag ts base else base
  | none => base

/-- Source method print_human as a pure state transition plus output. -/
def print_human (strftime : String → Int → Option String)
    (terminalWidth : Option Nat) (t : Terminal) (r : Record) :
    Terminal × Output :=
  ({ t with
      process_width := newProcessWidth t r
      thread_width := newThreadWidth t r
      tag_timestamps := newTagTimestamps t r },
   { rule := if isBeginningOf r.message then terminalWidth.map hrule else none
     lines := recordLines strftime terminalWidth t r
     raw := none })

/-- The command-line arguments Terminal::new reads (clap is external): each
is_present flag is a Bool, the format and highlight values are optional. -/
structure Args where
  monochrome : Bool
  hide_timestamp : Bool
  no_dimm : Bool
  shorten_tags : Bool
  show_date : Bool
  show_time_diff : Bool
  format : Option String
  highlight : Option (List String)
deriving DecidableEq, Repr

/-- The loaded profile (external collaborator): supplies default highlight
patterns. -/
structure Profile where
  highlight : List String
deriving DecidableEq, Repr

/-- The persisted config store queried through config_get (external): each
key's typed value, when present. -/
structure Config where
  terminal_monochrome : Option Bool
  terminal_hide_timestamp : Option Bool
  terminal_no_dimm : Option Bool
  terminal_shorten_tags : Option Bool
  terminal_show_date : Option Bool
  terminal_tag_width : Option Nat
  terminal_show_time_diff : Option Bool
  terminal_time_diff_width : Option Nat
deriving DecidableEq, Repr

/-- The configured highlight pattern list: the profile's defaults extended by
the flag-supplied patterns (Terminal::new lines 48-51; parsing the flag
values as strings cannot fail). -/
def resolvedPatterns (args : Args) (profile : Profile) : List String :=
  profile.highlight ++ args.highlight.getD []

/-- The resolved output format (Terminal::new lines 54-56): the parsed
format argument, falling back to Human when absent or unparsable. -/
def resolveFormat (args : Args) : Format :=
  (args.format.bind Format.fromStr).getD Format.Human

/-- The date format pattern and its fixed width (Terminal::new lines 80-90). -/
def resolveDateFormat (show_date hide_timestamp : Bool) : String × Nat :=
  if show_date then
    if hide_timestamp then ("%m-%d", 5) else ("%m-%d %H:%M:%S.%f", 18)
  else if hide_timestamp then ("", 0)
  else ("%H:%M:%S.%f", 12)

/-- Source constructor Terminal::new, parametric in the external regex
compiler: invalid highlight patterns compile to none and are dropped by
flat_map; Html is rejected with a configuration error; every other resolved
format constructs the state of lines 77-102. -/
def Terminal.new (compile : String → Option Regex) (args : Args)
    (profile : Profile) (cfg : Config) : Except String Terminal :=
  let highlight := (resolvedPatterns args profile).filterMap compile
  let format := resolveFormat args
  if format = Format.Html then
    Except.error "HTML format is unsupported when writing to files"
  else
    let hide_timestamp := args.hide_timestamp || cfg.terminal_hide_timestamp.getD false
    let show_date := args.show_date || cfg.terminal_show_date.getD false
    let time_diff := args.show_time_diff || cfg.terminal_show_time_diff.getD false
    let time_diff_width := cfg.terminal_time_diff_width.getD 8
    Except.ok
      { color := !args.monochrome && !(cfg.terminal_monochrome.getD false)
        date_format := resolveDateFormat show_date hide_timestamp
        diff_width := if time_diff then time_diff_width else 0
        format := format
        highlight := highlight
        no_dimm := args.no_dimm || cfg.terminal_no_dimm.getD false
        process_width := 0
        shorten_tag := args.shorten_tags || cfg.terminal_shorten_tags.getD false
        tag_timestamps := []
        tag_width := cfg.terminal_tag_width
        thread_width := 0
        time_diff := time_diff }

/-- Source method print_record: pass-through formats delegate to the
record's own serializer (external, a parameter) and print its single line;
Human renders; Html at this point is the source's unreachable panic,
modelled as a distinguished error. -/
def print_record (strftime : String → Int → Option String)
    (recordFormat : Format → Record → Except String String)
    (terminalWidth : Option Nat) (t : Terminal) (r : Record) :
    Except String (Terminal × Output) :=
  match t.format with
  | Format.Csv | Format.Json | Format.Raw =>
      match recordFormat t.format r with
      | Except.ok s => Except.ok (t, { rule := none, lines := [], raw := some s })
      | Except.error e => Except.error e
  | Format.Human => Except.ok (print_human strftime terminalWidth t r)
  | Format.Html => Except.error "unreachable: Unimplemented format html"

/-- Source method start_send of the Sink implementation: a Some item is
printed (propagating its error), a None item does nothing; both return
AsyncSink::Ready, modelled as a non-error result. -/
def start_send (strftime : String → Int → Option String)
    (recordFormat : Format → Record → Except String String)
    (terminalWidth : Option Nat) (t : Terminal) (item : Option Record) :
    Except String (Terminal × Output) :=
  match item with
  | some r => print_record strftime recordFormat terminalWidth t r
  | none => Except.ok (t, { rule := none, lines := [], raw := none })

/-- A concrete strftime stand-in that always fails (the formatted timestamp
text is irrelevant to every concrete evaluation below). -/
def strf0 : String → Int → Option String := fun _ _ => none

/-- A concrete regex compiler that treats the pattern "[" as invalid (a lone
opening bracket does not compile in the regex crate) and accepts anything
else. -/
def compile0 : String → Option Regex :=
  fun p => if p = "[" then none else some { pattern := p }

/-- A concrete renderer state with time-diff enabled, a stored timestamp for
tag NET and no timestamp column. -/
def tC1 : Terminal :=
  { color := false, date_format := ("", 0), diff_width := 8
    format := Format.Human, highlight := [], no_dimm := false
    process_width := 0, shorten_tag := false
    tag_timestamps := [("NET", 0)], tag_width := some 3
    thread_width := 0, time_diff := true }

/-- A concrete record for tag NET with timestamp 5 ms. -/
def rC1 : Record :=
  { timestamp := some 5, message := "connected", tag := "NET"
    process := "", thread := "", level := Level.Info }

/-- A concrete renderer state with time-diff enabled and a stored timestamp
for tag B. -/
def tC4 : Terminal :=
  { color := false, date_format := ("", 0), diff_width := 8
    format := Format.Human, highlight := [], no_dimm := false
    process_width := 0, shorten_tag := false
    tag_timestamps := [("B", 100)], tag_width := some 3
    thread_width := 0, time_diff := true }

/-- A concrete session-boundary record carrying its own tag A and a
timestamp. -/
def rC4 : Record :=
  { timestamp := some 5000, message := "--------- beginning of main"
    tag := "A", process := "", thread := "", level := Level.None }

/-- A concrete minimal renderer state: all fixed widths zero except a tag
column of 2, giving preamble width 14. -/
def t2w : Terminal :=
  { color := false, date_format := ("", 0), diff_width := 0
    format := Format.Human, highlight := [], no_dimm := false
    process_width := 0, shorten_tag := false
    tag_timestamps := [], tag_width := some 2
    thread_width := 0, time_diff := false }

/-- A concrete record with a 10-character message. -/
def r2w : Record :=
  { timestamp := none, message := "abcdefghij", tag := "T"
    process := "", thread := "", level := Level.Info }

/-- Concrete arguments requesting the html output format. -/
def argsHtml : Args :=
  { monochrome := false, hide_timestamp := false, no_dimm := false
    shorten_tags := false, show_date := false, show_time_diff := false
    format := some "html", highlight := none }

/-- Concrete default arguments (no format flag, no highlight flag). -/
def args0 : Args :=
  { monochrome := false, hide_timestamp := false, no_dimm := false
    shorten_tags := false, show_date := false, show_time_diff := false
    format := none, highlight := none }

/-- Concrete arguments supplying one invalid and one valid highlight
pattern. -/
def argsHl : Args :=
  { monochrome := false, hide_timestamp := false, no_dimm := false
    shorten_tags := false, show_date := false, show_time_diff := false
    format := none, highlight := some ["[", "ok"] }

/-- A concrete profile with no default highlight patterns. -/
def profile0 : Profile := { highlight := [] }

/-- A concrete persisted config with no stored values. -/
def config0 : Config :=
  { terminal_monochrome := none, terminal_hide_timestamp := none
    terminal_no_dimm := none, terminal_shorten_tags := none
    terminal_show_date := none, terminal_tag_width := none
    terminal_show_time_diff := none, terminal_time_diff_width := none }

set_option maxHeartbeats 2000000 in
theorem remap_eq (c : Nat) :
    (if c ≤ 1 then c + 2
     else if 16 ≤ c ∧ c ≤ 21 then c + 6
     else if (52 ≤ c ∧ c ≤ 55) ∨ (126 ≤ c ∧ c ≤ 129) then c + 4
     else if (163 ≤ c ∧ c ≤ 165) ∨ (200 ≤ c ∧ c ≤ 201) then c + 3
     else if c = 207 then c + 1
     else if 232 ≤ c ∧ c ≤ 240 then c + 9
     else c) = applyRemap colorRemapTable c := by
  simp only [colorRemapTable, applyRemap]
  split_ifs <;> omega

/-- C7: the color hash is a pure function of its input string (identical
inputs yield identical colors), and the source's match-based computation
coincides with the spec's reference definition (seeded XOR-fold followed by
the fixed ordered range→offset table) on every byte sequence. -/
theorem hashed_color_pure_and_spec :
    (∀ s₁ s₂ : String, s₁ = s₂ → hashed_color s₁ = hashed_color s₂) ∧
    (∀ bytes : List Nat, hashed_color_bytes bytes = specColorHash bytes) := by
  refine ⟨fun s₁ s₂ h => by rw [h], fun bytes => ?_⟩
  simp only [hashed_color_bytes, specColorHash]
  exact remap_eq (bytes.foldl (fun c x => (c ^^^ x) % 65536) 42)

/-- Witness for C7 at concrete inputs: the tag "NET" hashes to the same color
as itself, and a concrete byte sequence agrees with the reference definition. -/
theorem hashed_color_pure_and_spec_witness :
    hashed_color "NET" = hashed_color "NET" ∧
    hashed_color_bytes [78, 69, 84] = specColorHash [78, 69, 84] :=
  ⟨hashed_color_pure_and_spec.1 "NET" "NET" rfl,
   hashed_color_pure_and_spec.2 [78, 69, 84]⟩

/-- C6: process_width and thread_width are monotonically non-decreasing: for
every record processed by print_human, each width after the call is at least
its value before the call (hence across any record sequence in a session). -/
theorem widths_monotone (strftime : String → Int → Option String)
    (terminalWidth : Option Nat) (t : Terminal) (r : Record) :
    t.process_width ≤ (print_human strftime terminalWidth t r).1.process_width ∧
    t.thread_width ≤ (print_human strftime terminalWidth t r).1.thread_width := by
  constructor
  · show t.process_width ≤ newProcessWidth t r
    exact Nat.le_max_left _ _
  · show t.thread_width ≤ newThreadWidth t r
    unfold newThreadWidth
    split
    · exact Nat.le_refl _
    · exact Nat.le_max_left _ _

/-- C10: feeding the sink a None item prints nothing (no rule line, no
record lines, no raw pass-through line), leaves the whole renderer state —
widths, tag timestamps and every configuration field — unchanged, and
returns ready without error. -/
theorem none_item_noop (strftime : String → Int → Option String)
    (recordFormat : Format → Record → Except String String)
    (terminalWidth : Option Nat) (t : Terminal) :
    start_send strftime recordFormat terminalWidth t none =
      Except.ok (t, { rule := none, lines := [], raw := none }) := rfl

theorem new_error_of_html (compile : String → Option Regex) (args : Args)
    (profile : Profile) (cfg : Config) (h : resolveFormat args = Format.Html) :
    Terminal.new compile args profile cfg =
      Except.error "HTML format is unsupported when writing to files" := by
  simp only [Terminal.new]
  rw [if_pos h]

theorem new_ok_of_ne_html (compile : String → Option Regex) (args : Args)
    (profile : Profile) (cfg : Config) (h : resolveFormat args ≠ Format.Html) :
    ∃ t : Terminal, Terminal.new compile args profile cfg = Except.ok t ∧
      t.highlight = (resolvedPatterns args profile).filterMap compile := by
  simp only [Terminal.new]
  rw [if_neg h]
  exact ⟨_, rfl, rfl⟩

/-- C5: constructing the renderer with a resolved Html output format fails
with the configuration error, for every argument/profile/config combination
and any regex compiler, before any record is processed (Terminal.new
consumes no records); with every other resolved format construction
succeeds, so it never fails on format grounds. -/
theorem html_rejected_at_construction (compile : String → Option Regex)
    (args : Args) (profile : Profile) (cfg : Config) :
    (resolveFormat args = Format.Html →
      Terminal.new compile args profile cfg =
        Except.error "HTML format is unsupported when writing to files") ∧
    (resolveFormat args ≠ Format.Html →
      ∃ t : Terminal, Terminal.new compile args profile cfg = Except.ok t) := by
  constructor
  · exact new_error_of_html compile args profile cfg
  · intro h
    obtain ⟨t, ht, _⟩ := new_ok_of_ne_html compile args profile cfg h
    exact ⟨t, ht⟩

/-- Witness for C5: with the format flag "html" construction returns the
configuration error; with no format flag it succeeds. -/
theorem html_rejected_at_construction_witness :
    Terminal.new compile0 argsHtml profile0 config0 =
      Except.error "HTML format is unsupported when writing to files" ∧
    ∃ t : Terminal, Terminal.new compile0 args0 profile0 config0 = Except.ok t :=
  ⟨(html_rejected_at_construction compile0 argsHtml profile0 config0).1 (by decide),
   (html_rejected_at_construction compile0 args0 profile0 config0).2 (by decide)⟩

/-- C8: construction never fails because a highlight pattern is an invalid
regular expression: success is independent of the regex compiler (so
whatever set of patterns is invalid, construction still succeeds), each
invalid pattern contributes nothing to the active highlight set, and exactly
the valid patterns' compiled regexes are retained, in order. -/
theorem invalid_highlight_dropped (compile : String → Option Regex)
    (args : Args) (profile : Profile) (cfg : Config)
    (h : resolveFormat args ≠ Format.Html) :
    (∀ compile' : String → Option Regex,
      ∃ t : Terminal, Terminal.new compile' args profile cfg = Except.ok t) ∧
    (∃ t : Terminal, Terminal.new compile args profile cfg = Except.ok t ∧
      t.highlight = (resolvedPatterns args profile).filterMap compile ∧
      (∀ p ∈ resolvedPatterns args profile, ∀ rx : Regex,
        compile p = some rx → rx ∈ t.highlight) ∧
      (∀ rx : Regex, rx ∈ t.highlight →
        ∃ p ∈ resolvedPatterns args profile, compile p = some rx)) := by
  constructor
  · intro compile'
    obtain ⟨t, ht, _⟩ := new_ok_of_ne_html compile' args profile cfg h
    exact ⟨t, ht⟩
  · obtain ⟨t, ht, hhl⟩ := new_ok_of_ne_html compile args profile cfg h
    refine ⟨t, ht, hhl, ?_, ?_⟩
    · intro p hp rx hc
      rw [hhl]
      exact List.mem_filterMap.mpr ⟨p, hp, hc⟩
    · intro rx hrx
      rw [hhl] at hrx
      exact List.mem_filterMap.mp hrx

/-- Witness for C8: with one invalid pattern "[" and one valid pattern "ok",
construction succeeds and retains exactly the compiled valid pattern. -/
theorem invalid_highlight_dropped_witness :
    ∃ t : Terminal, Terminal.new compile0 argsHl profile0 config0 = Except.ok t ∧
      t.highlight = [{ pattern := "ok" }] := by
  obtain ⟨t, ht, hhl, _, _⟩ :=
    (invalid_highlight_dropped compile0 argsHl profile0 config0 (by decide)).2
  refine ⟨t, ht, ?_⟩
  rw [hhl]
  decide

/-- C1 (code bug): with a stored timestamp 0 for tag NET, a record timestamp
of 5 ms (elapsed 5 ms, well under diff_width 8) renders the diff text "0.5",
not the claimed "seconds.three-digit-millis" form "0.005": the Rust format
string "{}.{:.03}" uses a precision specifier, which Rust ignores for
integers, so the millisecond fraction is not zero-padded (specDiffText is
the spec-faithful rendering). -/
theorem diff_not_zero_padded :
    diffText true 8 (lookupTs "NET" tC1.tag_timestamps) 5 = "0.5" ∧
    ((print_human strf0 none tC1 rC1).2.lines.map Line.diff) = ["0.5"] ∧
    specDiffText 8 (lookupTs "NET" tC1.tag_timestamps) 5 = "0.005" := by
  refine ⟨?_, ?_, ?_⟩ <;> decide

theorem spaces_length (n : Nat) : (spaces n).length = n := by
  show (List.replicate n ' ').length = n
  exact List.length_replicate n ' '

theorem padLeft_length (w : Nat) (s : String) :
    (padLeft w s).length = max w s.length := by
  unfold padLeft
  rw [String.length_append, spaces_length]
  omega

theorem truncateUtf8_le (n : Nat) :
    ∀ (l r : List Char), truncateUtf8 n l = some r → r.length ≤ n := by
  induction n using Nat.strong_induction_on with
  | _ n ih =>
      intro l r h
      match l with
      | [] =>
          simp only [truncateUtf8, Option.some.injEq] at h
          subst h
          simp
      | c :: cs =>
          by_cases h0 : n = 0
          · subst h0
            have h' : ([] : List Char) = r := Option.some.inj h
            subst h'
            simp
          · simp only [truncateUtf8, if_neg h0] at h
            by_cases hsz : c.utf8Size ≤ n
            · rw [if_pos hsz] at h
              obtain ⟨r', hr', rfl⟩ := Option.map_eq_some'.mp h
              have hpos := Char.utf8Size_pos c
              have := ih (n - c.utf8Size) (by omega) cs r' hr'
              simp only [List.length_cons]
              omega
            · rw [if_neg hsz] at h
              exact absurd h (by simp)

theorem truncateUtf8_ascii :
    ∀ (l : List Char) (n : Nat), (∀ c ∈ l, c.utf8Size = 1) →
      truncateUtf8 n l = some (l.take n) := by
  intro l
  induction l with
  | nil => intro n _; simp [truncateUtf8]
  | cons c cs ih =>
      intro n hascii
      by_cases h0 : n = 0
      · subst h0
        simp [truncateUtf8]
      · have hc : c.utf8Size = 1 := hascii c (List.mem_cons_self c cs)
        simp only [truncateUtf8, if_neg h0, hc, if_pos (by omega : 1 ≤ n)]
        rw [ih (n - 1) (fun d hd => hascii d (List.mem_cons_of_mem c hd))]
        rw [show n = (n - 1) + 1 from by omega, List.take_succ_cons]
        rfl

/-- C3 counterexample: the claim says every over-width tag is rendered as
exactly W characters, but the four-character tag of two-byte characters
"αβγδ" at tag width 3 is not rendered at all: byte index 3 falls strictly
inside the second character, so the byte-based String::truncate of
print_human line 199 panics and the program aborts instead of rendering. -/
theorem tag_byte_truncate_panics :
    "αβγδ".length > 3 ∧ renderTag false 3 "αβγδ" = none := by
  constructor <;> decide

/-- C3 amended: whenever the byte-based truncation does not panic — in
particular for every all-ASCII tag, whose byte indices are all character
boundaries — an over-width tag is rendered as exactly W characters (vowels
are stripped first when shortening is enabled), and a tag of at most W
characters is always rendered untruncated (no truncation is attempted, so no
panic is possible there), right-aligned, padded to exactly W characters. -/
theorem tag_render_width (shorten : Bool) (w : Nat) (tag : String) :
    (∀ s : String, renderTag shorten w tag = some s → s.length = w) ∧
    (tag.length ≤ w →
      renderTag shorten w tag = some (spaces (w - tag.length) ++ tag) ∧
      (spaces (w - tag.length) ++ tag).length = w) ∧
    ((∀ c ∈ tag.toList, c.utf8Size = 1) →
      ∃ s : String, renderTag shorten w tag = some s ∧ s.length = w) := by
  refine ⟨?_, ?_, ?_⟩
  · intro s hs
    unfold renderTag at hs
    by_cases h1 : tag.length > w
    · rw [if_pos h1] at hs
      by_cases h2 : (shortenedTag shorten tag).length > w
      · rw [if_pos h2] at hs
        obtain ⟨u, hu, rfl⟩ := Option.map_eq_some'.mp hs
        obtain ⟨v, hv, rfl⟩ := Option.map_eq_some'.mp hu
        have hle := truncateUtf8_le w _ v hv
        rw [padLeft_length]
        have : (String.mk v).length = v.length := rfl
        omega
      · rw [if_neg h2, Option.some.injEq] at hs
        subst hs
        rw [padLeft_length]
        omega
    · rw [if_neg h1, Option.some.injEq] at hs
      subst hs
      rw [padLeft_length]
      omega
  · intro hle
    refine ⟨?_, ?_⟩
    · unfold renderTag
      rw [if_neg (by omega)]
      rfl
    · have : (spaces (w - tag.length) ++ tag).length = max w tag.length :=
        padLeft_length w tag
      omega
  · intro hascii
    have hascii2 : ∀ c ∈ (shortenedTag shorten tag).toList, c.utf8Size = 1 := by
      intro c hc
      apply hascii
      unfold shortenedTag at hc
      by_cases hs : shorten
      · rw [if_pos hs] at hc
        replace hc : c ∈ tag.toList.filter
            (fun c => !(c == 'a' || c == 'e' || c == 'i' || c == 'o' || c == 'u')) := hc
        exact (List.mem_filter.mp hc).1
      · rw [if_neg hs] at hc
        exact hc
    unfold renderTag
    by_cases h1 : tag.length > w
    · by_cases h2 : (shortenedTag shorten tag).length > w
      · rw [if_pos h1, if_pos h2]
        unfold truncateStr
        rw [truncateUtf8_ascii (shortenedTag shorten tag).toList w hascii2]
        refine ⟨_, rfl, ?_⟩
        rw [padLeft_length]
        have hmk : (String.mk ((shortenedTag shorten tag).toList.take w)).length
            = min w (shortenedTag shorten tag).length := by
          show ((shortenedTag shorten tag).toList.take w).length = _
          rw [List.length_take]
          rfl
        omega
      · rw [if_pos h1, if_neg h2]
        refine ⟨_, rfl, ?_⟩
        rw [padLeft_length]
        omega
    · rw [if_neg h1]
      refine ⟨_, rfl, ?_⟩
      rw [padLeft_length]
      omega

/-- Witness for C3's amended statement: the over-width ASCII tag "radio" at
width 3 renders, without panicking, as exactly 3 characters, and the
two-character tag "ab" at width 3 renders right-aligned as exactly " ab". -/
theorem tag_render_width_witness :
    (∃ s : String, renderTag false 3 "radio" = some s ∧ s.length = 3) ∧
    renderTag true 3 "ab" = some (spaces 1 ++ "ab") := by
  constructor
  · exact (tag_render_width false 3 "radio").2.2 (by decide)
  · have h := ((tag_render_width true 3 "ab").2.1 (by decide)).1
    rw [h]
    rfl

/-- C4 counterexample: the claim says processing a session-boundary record
resets the tag-timestamp map, but after processing the boundary record rC4
(tag A, timestamp 5000, time-diff enabled) the map is [(A, 5000)], not
empty: the clear happens mid-processing and the record's own tag is then
stored by the normal post-print timestamp update. -/
theorem session_boundary_reset_cex :
    isBeginningOf rC4.message = true ∧
    (print_human strf0 none tC4 rC4).1.tag_timestamps = [("A", 5000)] ∧
    (print_human strf0 none tC4 rC4).1.tag_timestamps ≠ [] := by
  refine ⟨?_, ?_, ?_⟩ <;> decide

/-- C4 amended: processing a session-boundary record clears every previously
stored tag timestamp and forces the diff text of every emitted line to be
empty; the resulting map is empty except that the record's own non-empty tag
is re-stored by the normal post-print timestamp update when time-diff is
enabled and the record carries a timestamp. -/
theorem session_boundary_reset_amended (strftime : String → Int → Option String)
    (terminalWidth : Option Nat) (t : Terminal) (r : Record)
    (h : isBeginningOf r.message = true) :
    (∀ l ∈ (print_human strftime terminalWidth t r).2.lines, l.diff = "") ∧
    (print_human strftime terminalWidth t r).1.tag_timestamps =
      (match r.timestamp with
       | some ts => if t.time_diff ∧ r.tag ≠ "" then [(r.tag, ts)] else []
       | none => []) := by
  constructor
  · intro l hl
    have hl' : l ∈ recordLines strftime terminalWidth t r := hl
    simp only [recordLines, List.mem_map] at hl'
    obtain ⟨cs, _, rfl⟩ := hl'
    simp [h]
  · show newTagTimestamps t r = _
    unfold newTagTimestamps
    rw [h]
    simp only [if_true]
    cases r.timestamp with
    | none => rfl
    | some ts =>
        dsimp only
        by_cases hc : (t.time_diff = true ∧ r.tag ≠ "")
        · rw [if_pos hc, if_pos hc]
          rfl
        · rw [if_neg hc, if_neg hc]

/-- Witness for C4's amended statement at the concrete boundary record rC4:
all emitted lines carry an empty diff text and the resulting map holds
exactly the record's own tag. -/
theorem session_boundary_reset_amended_witness :
    (∀ l ∈ (print_human strf0 none tC4 rC4).2.lines, l.diff = "") ∧
    (print_human strf0 none tC4 rC4).1.tag_timestamps = [("A", 5000)] := by
  have h := session_boundary_reset_amended strf0 none tC4 rC4 (by decide)
  refine ⟨h.1, ?_⟩
  rw [h.2]
  decide

theorem wrapChunks_nil_arg (cols preamble recordLen fuel : Nat) :
    wrapChunks cols preamble recordLen fuel [] = [] := by
  cases fuel <;> rfl

theorem ceil_div_one (k len : Nat) (hk : 0 < k) (h1 : 0 < len) (h2 : len ≤ k) :
    (len + k - 1) / k = 1 := by
  have e : len + k - 1 = k + (len - 1) := by omega
  rw [e, Nat.add_div_left _ hk, Nat.div_eq_of_lt (by omega)]

theorem ceil_div_step (k len : Nat) (hk : 0 < k) (h : k < len) :
    (len + k - 1) / k = ((len - k) + k - 1) / k + 1 := by
  have e : len + k - 1 = ((len - k) + k - 1) + k := by omega
  rw [e, Nat.add_div_right _ hk]

theorem ceil_div_pos (k len : Nat) (hk : 0 < k) (h1 : 0 < len) :
    0 < (len + k - 1) / k :=
  Nat.div_pos (by omega) hk

theorem wrapChunks_rest (cols preamble recordLen : Nat)
    (hk : 0 < cols - preamble) :
    ∀ (fuel : Nat) (m : List Char), m.length ≤ fuel → 0 < m.length →
      m.length < recordLen →
      (wrapChunks cols preamble recordLen fuel m).map Prod.snd =
        List.replicate
            ((m.length + (cols - preamble) - 1) / (cols - preamble) - 1) "├"
          ++ ["└"] ∧
      List.flatten ((wrapChunks cols preamble recordLen fuel m).map Prod.fst) = m := by
  intro fuel
  induction fuel with
  | zero =>
      intro m h1 h2 h3
      omega
  | succ fuel ih =>
      intro m h1 h2 h3
      obtain ⟨c, cs, rfl⟩ : ∃ c cs, m = c :: cs := by
        cases m with
        | nil => simp at h2
        | cons c cs => exact ⟨c, cs, rfl⟩
      by_cases hle : (c :: cs).length ≤ cols - preamble
      · have hplan : chunkPlan cols preamble recordLen (c :: cs).length =
            ((c :: cs).length, "└") := by
          unfold chunkPlan
          rw [if_neg (by omega), if_pos hle]
        simp only [wrapChunks]
        rw [hplan]
        dsimp only
        rw [List.take_length, List.drop_length, wrapChunks_nil_arg]
        refine ⟨?_, ?_⟩
        · rw [ceil_div_one (cols - preamble) (c :: cs).length hk h2 hle]
          rfl
        · simp
      · have hgt : cols - preamble < (c :: cs).length := by omega
        have hplan : chunkPlan cols preamble recordLen (c :: cs).length =
            (cols - preamble, "├") := by
          unfold chunkPlan
          rw [if_neg (by omega), if_neg (by omega)]
        simp only [wrapChunks]
        rw [hplan]
        dsimp only
        have hlen : ((c :: cs).drop (cols - preamble)).length
            = (c :: cs).length - (cols - preamble) := List.length_drop _ _
        obtain ⟨ihs, ihj⟩ := ih ((c :: cs).drop (cols - preamble))
          (by rw [hlen]; omega) (by rw [hlen]; omega) (by rw [hlen]; omega)
        rw [hlen] at ihs
        refine ⟨?_, ?_⟩
        · simp only [List.map_cons, ihs]
          rw [ceil_div_step (cols - preamble) (c :: cs).length hk hgt]
          have hpos : 0 <
              (((c :: cs).length - (cols - preamble)) + (cols - preamble) - 1) /
                (cols - preamble) :=
            ceil_div_pos (cols - preamble) ((c :: cs).length - (cols - preamble))
              hk (by omega)
          rw [show (((c :: cs).length - (cols - preamble)) + (cols - preamble) - 1) /
                (cols - preamble) + 1 - 1
              = ((((c :: cs).length - (cols - preamble)) + (cols - preamble) - 1) /
                (cols - preamble) - 1) + 1 from by omega]
          rw [List.replicate_succ]
          rfl
        · simp only [List.map_cons, List.flatten_cons, ihj]
          exact List.take_append_drop _ _

theorem wrapChunks_full (cols preamble L : Nat) (m : List Char)
    (hm : m.length = L) (hk : 0 < cols - preamble) (hL : cols - preamble < L) :
    (wrapChunks cols preamble L L m).map Prod.snd =
      "┌" :: (List.replicate
          ((L + (cols - preamble) - 1) / (cols - preamble) - 2) "├" ++ ["└"]) ∧
    List.flatten ((wrapChunks cols preamble L L m).map Prod.fst) = m := by
  obtain ⟨c, cs, rfl⟩ : ∃ c cs, m = c :: cs := by
    cases m with
    | nil => simp at hm; omega
    | cons c cs => exact ⟨c, cs, rfl⟩
  obtain ⟨fuel, hfuel⟩ : ∃ fuel, L = fuel + 1 := ⟨L - 1, by omega⟩
  have hfm : (c :: cs).length ≤ fuel + 1 := by omega
  have hplan : chunkPlan cols preamble L (c :: cs).length =
      (cols - preamble, "┌") := by
    unfold chunkPlan
    rw [if_pos hm]
  rw [show wrapChunks cols preamble L L (c :: cs)
      = wrapChunks cols preamble L (fuel + 1) (c :: cs) from by rw [hfuel]]
  simp only [wrapChunks]
  rw [hplan]
  dsimp only
  have hlen : ((c :: cs).drop (cols - preamble)).length
      = (c :: cs).length - (cols - preamble) := List.length_drop _ _
  obtain ⟨ihs, ihj⟩ := wrapChunks_rest cols preamble L hk fuel
    ((c :: cs).drop (cols - preamble))
    (by rw [hlen]; omega) (by rw [hlen]; omega) (by rw [hlen]; omega)
  rw [hlen, hm] at ihs
  refine ⟨?_, ?_⟩
  · simp only [List.map_cons, ihs]
    rw [ceil_div_step (cols - preamble) L hk hL]
    rw [show (L - (cols - preamble)) + (cols - preamble) - 1
        = L - 1 from by omega]
    rw [show ((L - 1) / (cols - preamble) + 1 - 2)
        = ((L - 1) / (cols - preamble) - 1) from by omega]
  · simp only [List.map_cons, List.flatten_cons, ihj]
    exact List.take_append_drop _ _

theorem print_human_lines (strftime : String → Int → Option String)
    (terminalWidth : Option Nat) (t : Terminal) (r : Record) :
    (print_human strftime terminalWidth t r).2.lines
      = recordLines strftime terminalWidth t r := rfl

theorem recordLines_sign (strftime : String → Int → Option String)
    (terminalWidth : Option Nat) (t : Terminal) (r : Record) :
    (recordLines strftime terminalWidth t r).map Line.sign
      = (messageChunks terminalWidth (preambleAfter t terminalWidth r)
          r.message).map Prod.snd := by
  unfold recordLines
  rw [List.map_map]
  rfl

theorem recordLines_chunks (strftime : String → Int → Option String)
    (terminalWidth : Option Nat) (t : Terminal) (r : Record) :
    (recordLines strftime terminalWidth t r).map (fun l => l.chunk.toList)
      = (messageChunks terminalWidth (preambleAfter t terminalWidth r)
          r.message).map Prod.fst := by
  unfold recordLines
  rw [List.map_map]
  rfl

/-- C2: with detected terminal width Wc and computed preamble width Wp < Wc,
a record whose message length L exceeds Wc - Wp is emitted as exactly
ceil(L / (Wc - Wp)) physical lines, the first carrying the start marker, the
intermediate ones the continuation marker and the last the end marker; a
record whose message fits (Wp + L does not exceed Wc) and any record with
undetected terminal width is emitted as exactly one line with a blank
marker. -/
theorem wrap_line_count_and_markers (strftime : String → Int → Option String)
    (Wc : Nat) (t : Terminal) (r : Record) :
    (preambleAfter t (some Wc) r < Wc →
     Wc - preambleAfter t (some Wc) r < r.message.length →
     ((print_human strftime (some Wc) t r).2.lines).length =
        (r.message.length + (Wc - preambleAfter t (some Wc) r) - 1) /
          (Wc - preambleAfter t (some Wc) r) ∧
     ((print_human strftime (some Wc) t r).2.lines).map Line.sign =
        "┌" :: (List.replicate
            ((r.message.length + (Wc - preambleAfter t (some Wc) r) - 1) /
              (Wc - preambleAfter t (some Wc) r) - 2) "├" ++ ["└"])) ∧
    (preambleAfter t (some Wc) r + r.message.length ≤ Wc →
     ((print_human strftime (some Wc) t r).2.lines).map Line.sign = [" "]) ∧
    ((print_human strftime none t r).2.lines).map Line.sign = [" "] := by
  refine ⟨?_, ?_, ?_⟩
  · intro h1 h2
    have hchunks : messageChunks (some Wc) (preambleAfter t (some Wc) r) r.message
        = wrapChunks Wc (preambleAfter t (some Wc) r) r.message.length
            r.message.length r.message.toList := by
      unfold messageChunks
      dsimp only
      rw [if_pos (by omega)]
    have hsigns := (wrapChunks_full Wc (preambleAfter t (some Wc) r)
        r.message.length r.message.toList rfl (by omega) h2).1
    have hpos2 : 2 ≤ (r.message.length + (Wc - preambleAfter t (some Wc) r) - 1) /
        (Wc - preambleAfter t (some Wc) r) := by
      rw [ceil_div_step (Wc - preambleAfter t (some Wc) r) r.message.length
        (by omega) h2]
      have := ceil_div_pos (Wc - preambleAfter t (some Wc) r)
        (r.message.length - (Wc - preambleAfter t (some Wc) r)) (by omega) (by omega)
      omega
    constructor
    · have e1 : ((print_human strftime (some Wc) t r).2.lines).length
          = (((print_human strftime (some Wc) t r).2.lines).map Line.sign).length :=
        (List.length_map _ _).symm
      rw [e1, print_human_lines, recordLines_sign, hchunks, hsigns]
      rw [List.length_cons, List.length_append, List.length_replicate]
      simp only [List.length_singleton]
      omega
    · rw [print_human_lines, recordLines_sign, hchunks, hsigns]
  · intro h
    rw [print_human_lines, recordLines_sign]
    unfold messageChunks
    dsimp only
    rw [if_neg (by omega)]
    rfl
  · rw [print_human_lines, recordLines_sign]
    rfl

/-- Witness for C2 at a concrete state: terminal width 18, preamble width
14, message of 10 characters: exactly ceil(10/4) = 3 lines carrying the
start, continuation and end markers. -/
theorem wrap_line_count_and_markers_witness :
    ((print_human strf0 (some 18) t2w r2w).2.lines).length = 3 ∧
    ((print_human strf0 (some 18) t2w r2w).2.lines).map Line.sign
      = ["┌", "├", "└"] := by
  have h := (wrap_line_count_and_markers strf0 18 t2w r2w).1 (by decide) (by decide)
  refine ⟨?_, ?_⟩
  · rw [h.1]
    decide
  · rw [h.2]
    decide

/-- C9: whenever the terminal width is undetected, or the detected width
strictly exceeds the computed preamble width, or preamble plus message fit
within the detected width, the emitted chunks concatenate to exactly the
whole message — the wrapping loop consumes it entirely and terminates —
and, with detected width exceeding the preamble, every iteration of the
loop on a non-empty remaining message removes at least one character. -/
theorem wrap_terminates (strftime : String → Int → Option String)
    (terminalWidth : Option Nat) (t : Terminal) (r : Record)
    (h : terminalWidth = none ∨
      ∃ Wc, terminalWidth = some Wc ∧
        (preambleAfter t terminalWidth r < Wc ∨
         preambleAfter t terminalWidth r + r.message.length ≤ Wc)) :
    List.flatten (((print_human strftime terminalWidth t r).2.lines).map
        (fun l => l.chunk.toList)) = r.message.toList ∧
    (∀ (Wc : Nat) (m : List Char), terminalWidth = some Wc →
      preambleAfter t terminalWidth r < Wc → m ≠ [] →
      (m.drop (chunkPlan Wc (preambleAfter t terminalWidth r)
          r.message.length m.length).1).length < m.length) := by
  constructor
  · rw [print_human_lines, recordLines_chunks]
    rcases h with hnone | ⟨Wc, htw, hcase⟩
    · subst hnone
      simp [messageChunks]
    · subst htw
      unfold messageChunks
      dsimp only
      rcases hcase with hc | hc
      · by_cases hover : preambleAfter t (some Wc) r + r.message.length > Wc
        · rw [if_pos hover]
          exact (wrapChunks_full Wc (preambleAfter t (some Wc) r)
            r.message.length r.message.toList rfl (by omega) (by omega)).2
        · rw [if_neg hover]
          simp
      · rw [if_neg (by omega)]
        simp
  · intro Wc m htw hlt hm
    subst htw
    have hmlen : 0 < m.length := List.length_pos.mpr hm
    have hw : 0 < (chunkPlan Wc (preambleAfter t (some Wc) r)
        r.message.length m.length).1 := by
      unfold chunkPlan
      split_ifs with hA hB <;> dsimp only <;> omega
    rw [List.length_drop]
    omega

/-- Witness for C9 at the same concrete state: with width 18 and preamble
width 14 < 18, the emitted chunks concatenate to the full 10-character
message. -/
theorem wrap_terminates_witness :
    List.flatten (((print_human strf0 (some 18) t2w r2w).2.lines).map
        (fun l => l.chunk.toList)) = r2w.message.toList :=
  (wrap_terminates strf0 (some 18) t2w r2w
    (Or.inr ⟨18, rfl, Or.inl (by decide)⟩)).1
